import Mathlib

/-!
Shallow embedding of the editorjs-timesheet plugin (src/plugin.js and the
formatting utility src/utils/timesheet.js, shipped here as
src/unnamed/part_001), together with proofs of the specification claims.

Modelling conventions:
* JavaScript numbers are modelled as rationals (`ℚ`); minute counts, which
  the code only ever divides, multiplies and adds as whole numbers, are
  modelled as integers (`ℤ`).
* `null`/`undefined` values are modelled with `Option`.
* JavaScript truthiness on the values that the plugin tests is made
  explicit: a string is truthy iff nonempty, `null`/`undefined` are falsy,
  an array is always truthy, a boolean is truthy iff `true`.
* The DOM visibility of the three regions (input holder, table holder,
  loading indicator) is modelled by the presence of the `hide` class on
  each holder, exactly as `changeState` toggles them.
-/

/-- JsMath.round models the JavaScript `Math.round`: round half toward
positive infinity, i.e. `⌊x + 1/2⌋`. -/
def jsMathRound (q : ℚ) : ℤ := ⌊q + 1/2⌋

/-- Models `minutesToHoursMinutes` from src/unnamed/part_001:
`hours = Math.floor(minutes / 60); minutes = minutes - hours*60`.
On an integer argument, `Math.floor` of the real quotient `minutes / 60`
is exactly floor division `Int.fdiv minutes 60`; the lemma
`minutesToHoursMinutes_fst_floor` below records this. -/
def minutesToHoursMinutes (minutes : ℤ) : ℤ × ℤ :=
  let hours : ℤ := Int.fdiv minutes 60
  (hours, minutes - hours * 60)

/-- The hours component is the floor of the rational quotient
`minutes / 60`, as computed by `Math.floor(minutes / 60)`. -/
theorem minutesToHoursMinutes_fst_floor (m : ℤ) :
    (minutesToHoursMinutes m).1 = ⌊(m : ℚ) / 60⌋ := by
  have h : ((m : ℚ) / 60) = ((m : ℚ) / ((60 : ℕ) : ℚ)) := by norm_num
  rw [minutesToHoursMinutes, h, Rat.floor_intCast_div_natCast,
    Int.fdiv_eq_ediv _ (by norm_num)]
  norm_num

/-- Models `minutesToLabel` from src/unnamed/part_001. The argument is an
`Option`: `none` models a `null`/`undefined` argument, matched by the
`minutes == null` guard. -/
def minutesToLabel (minutes : Option ℤ) : String :=
  match minutes with
  | none => ""
  | some m =>
    if m = 0 then ""
    else
      let hm := minutesToHoursMinutes m
      if hm.1 = 0 then toString hm.2 ++ " minutes"
      else if hm.2 = 0 then toString hm.1 ++ " hours"
      else toString hm.1 ++ "h:" ++ toString hm.2 ++ "m"

/-- Renders a value scaled by 100 (an integer number of hundredths) as a
decimal string the way JavaScript prints such a number: no trailing zeros,
no decimal point for whole numbers. -/
def decStr2 (scaled : ℤ) : String :=
  let sign := if scaled < 0 then "-" else ""
  let a := scaled.natAbs
  let ip := a / 100
  let fp := a % 100
  if fp = 0 then sign ++ toString ip
  else if fp % 10 = 0 then sign ++ toString ip ++ "." ++ toString (fp / 10)
  else if fp < 10 then sign ++ toString ip ++ ".0" ++ toString fp
  else sign ++ toString ip ++ "." ++ toString fp

/-- Models JavaScript number-to-string coercion (as in `'$'+entryBill`) for
the rationals this plugin actually prints: every billing value has at most
two decimal places after `round2`, so values whose denominator divides 100
are rendered exactly; other rationals never reach a string position in the
claims and get a fallback rendering. -/
def numStr (q : ℚ) : String :=
  if (q.den : ℤ) ∣ 100 then decStr2 (q.num * (100 / (q.den : ℤ)))
  else toString q.num ++ "/" ++ toString q.den

/-- Round2 models the `Math.round(x * 100) / 100` idiom of
`prepareTableData`: round to 2 decimal places, half up on the value scaled
by 100. -/
def round2 (q : ℚ) : ℚ := (jsMathRound (q * 100) : ℚ) / 100

/-- TimesheetEntry models one row of the remote JSON response:
`{ story_name, minutes_spent, notes }`. -/
structure TimesheetEntry where
  story_name : String
  minutes_spent : ℤ
  notes : String
deriving DecidableEq

/-- TimesheetResponse models the remote JSON response
`{ entries: [...], per_hour: number }`. -/
structure TimesheetResponse where
  entries : List TimesheetEntry
  per_hour : ℚ
deriving DecidableEq

/-- Models `prepareTableData(response)` from src/src/plugin.js lines
271-296: a header row, one row per entry (with the per-entry bill
`Math.round(minutes_spent * (per_hour/60) * 100)/100`), and a bold total
row over `totalMins = entries.reduce((acc, e) => acc + e.minutes_spent, 0)`. -/
def prepareTableData (response : TimesheetResponse) : List (List String) :=
  let header := ["Work Details", "Billable time", "Note", "Billing (/hr)", "Total Billing"]
  let entryRows := response.entries.map (fun entry =>
    let entryBill := round2 ((entry.minutes_spent : ℚ) * (response.per_hour / 60))
    [entry.story_name, minutesToLabel (some entry.minutes_spent), entry.notes,
      "$" ++ numStr response.per_hour, "$" ++ numStr entryBill])
  let totalMins : ℤ := response.entries.foldl (fun acc entry => acc + entry.minutes_spent) 0
  let totalBill := round2 ((totalMins : ℚ) * (response.per_hour / 60))
  header :: (entryRows ++
    [["<b>Total</b>", "<b>" ++ minutesToLabel (some totalMins) ++ "</b>", "", "",
      "<b>$" ++ numStr totalBill ++ "</b>"]])

/-- STATE models the `STATE` enumeration of the block controller
(`EDIT:0, VIEW:1, LOADING:2`). -/
inductive STATE where
  | EDIT
  | VIEW
  | LOADING
deriving DecidableEq

/-- Visibility models the presence of the `hide` CSS class on each of the
three regions of the rendered block: `true` means the `hide` class is
present (the region is not shown). -/
structure Visibility where
  inputHidden : Bool
  tableHidden : Bool
  loadingHidden : Bool
deriving DecidableEq

/-- Models `changeState(state)` from src/src/plugin.js lines 312-330: each
case removes the `hide` class from its own region and adds it to the other
two. -/
def changeState (state : STATE) (v : Visibility) : Visibility :=
  match state with
  | .EDIT => { v with inputHidden := false, tableHidden := true, loadingHidden := true }
  | .VIEW => { v with tableHidden := false, inputHidden := true, loadingHidden := true }
  | .LOADING => { v with loadingHidden := false, tableHidden := true, inputHidden := true }

/-- BlockData models the normalized `this.data` of the controller, which is
also the persisted form returned by `save()`:
`{ withHeadings: boolean, content: string[][], snippet: string|null }`. -/
structure BlockData where
  withHeadings : Bool
  content : List (List String)
  snippet : Option String
deriving DecidableEq

/-- InputData models the raw persisted object handed to the constructor
before normalization: each field may be absent (`none` models
`null`/`undefined`). -/
structure InputData where
  withHeadings : Option Bool
  content : Option (List (List String))
  snippet : Option String
deriving DecidableEq

/-- Embeds a well-formed persisted `BlockData` as a raw constructor
argument, for stating the save/reload round trip. -/
def InputData.ofBlockData (d : BlockData) : InputData :=
  { withHeadings := some d.withHeadings, content := some d.content, snippet := d.snippet }

/-- JavaScript truthiness of a possibly-null string: `null`/`undefined`
and the empty string are falsy, every other string is truthy. -/
def jsTruthyStr (s : Option String) : Bool :=
  match s with
  | none => false
  | some str => str ≠ ""

/-- Models the normalization in the constructor (src/src/plugin.js lines
60-64): `withHeadings: data && data.withHeadings ? data.withHeadings : false`,
`content: data && data.content ? data.content : []` (a JavaScript array is
always truthy), `snippet: data && data.snippet ? data.snippet : null` (the
empty string is falsy). -/
def constructData (data : Option InputData) : BlockData :=
  match data with
  | none => { withHeadings := false, content := [], snippet := none }
  | some d =>
    { withHeadings := d.withHeadings = some true
      content := d.content.getD []
      snippet := if jsTruthyStr d.snippet then d.snippet else none }

/-- TableView models the external table view component.
Modelled from the spec: the file src/table.js imported by plugin.js is not
present under src/; per the spec the table view owns a two-dimensional
grid of editable cells and a headings toggle and serializes to/from a
plain data shape, so `new Table(readOnly, api, data, config)` stores
`data.content` and `getData()` returns the stored grid unchanged when no
user edit intervened. -/
structure TableView where
  content : List (List String)
  headings : Bool
deriving DecidableEq

/-- Modelled from the spec: constructing the table view from block data
stores the grid; `setHeadingsSetting` (called right after in `render`)
stores the headings flag. -/
def TableView.ofData (d : BlockData) : TableView :=
  { content := d.content, headings := d.withHeadings }

/-- Modelled from the spec: `table.getData()` returns the stored grid when
no user edit intervened. -/
def TableView.getData (t : TableView) : List (List String) := t.content

/-- BlockState models the controller after `render()`: its normalized
`this.data`, the table view, and the visibility of the three regions. -/
structure BlockState where
  data : BlockData
  table : TableView
  vis : Visibility
deriving DecidableEq

/-- Models `render()` (src/src/plugin.js lines 136-162): the table holder
and the loading holder are created with the `hide` class, the input holder
without it; then `if (this.data.snippet) this.show(STATE.VIEW)`. -/
def render (d : BlockData) : BlockState :=
  let vis0 : Visibility := { inputHidden := false, tableHidden := true, loadingHidden := true }
  { data := d
    table := TableView.ofData d
    vis := if jsTruthyStr d.snippet then changeState .VIEW vis0 else vis0 }

/-- Models `save()` (src/src/plugin.js lines 204-214): reads the grid back
from the table view and pairs it with the controller fields. -/
def save (st : BlockState) : BlockData :=
  { withHeadings := st.data.withHeadings
    content := st.table.getData
    snippet := st.data.snippet }

/-- FetchOutcome models the result of the single GET request issued by
`loadData`: either a parsed JSON body, or a rejection anywhere in the
fetch-then-parse chain. -/
inductive FetchOutcome where
  | success (response : TimesheetResponse)
  | failure
deriving DecidableEq

/-- Models `embedTable(data)` (src/src/plugin.js lines 298-310): replaces
`this.data.content` with `prepareTableData(data)`, sets
`withHeadings = true`, rebuilds the table view from the new data, and
shows `STATE.VIEW`. -/
def embedTable (st : BlockState) (response : TimesheetResponse) : BlockState :=
  let data' : BlockData := { st.data with content := prepareTableData response, withHeadings := true }
  { data := data'
    table := TableView.ofData data'
    vis := changeState .VIEW st.vis }

/-- Models `loadData(url)` (src/src/plugin.js lines 262-269): on success
the parsed body is passed to `embedTable`; on failure the catch handler
only logs (`console.error`) and the controller is untouched. -/
def loadData (st : BlockState) (url : String) (outcome : FetchOutcome) : BlockState :=
  match outcome with
  | .success response => embedTable st response
  | .failure => st

/-- Models the `input` listener installed by `makeInputHolder`
(src/src/plugin.js lines 238-244): when `regex.test(text)` succeeds, the
text is recorded as `this.data.snippet`, the controller shows
`STATE.LOADING`, and `loadData` runs against the text. `regexTest` models
`config.regex.test` and `outcome` the environment response to the fetch. -/
def handleInput (regexTest : String → Bool) (st : BlockState) (text : String)
    (outcome : FetchOutcome) : BlockState :=
  if regexTest text then
    let st' : BlockState :=
      { st with data := { st.data with snippet := some text }, vis := changeState .LOADING st.vis }
    loadData st' text outcome
  else st

/-- PasteEvent models the host paste events dispatched to `onPaste`: a
`pattern` event carries the matched text in `event.detail.data`; any other
event kind falls through the switch. -/
inductive PasteEvent where
  | pattern (data : String)
  | other
deriving DecidableEq

/-- Models `onPaste(event)` (src/src/plugin.js lines 332-338): a `pattern`
event only calls `loadData(event.detail.data)` — it does not record the
snippet and does not change visibility. -/
def onPaste (st : BlockState) (event : PasteEvent) (outcome : FetchOutcome) : BlockState :=
  match event with
  | .pattern data => loadData st data outcome
  | .other => st

/-- BlockEvent models one environment event hitting a rendered block: an
`input` DOM event with the current text (and, when a fetch starts, its
outcome), or a host paste event. A fetch failure is the `failure` outcome
of either. -/
inductive BlockEvent where
  | input (text : String) (outcome : FetchOutcome)
  | paste (event : PasteEvent) (outcome : FetchOutcome)
deriving DecidableEq

/-- One step of the event-driven controller. -/
def step (regexTest : String → Bool) (st : BlockState) (e : BlockEvent) : BlockState :=
  match e with
  | .input text outcome => handleInput regexTest st text outcome
  | .paste event outcome => onPaste st event outcome

/-- Runs a sequence of events from a state. -/
def steps (regexTest : String → Bool) (st : BlockState) (es : List BlockEvent) : BlockState :=
  es.foldl (step regexTest) st

/-- Holds iff exactly one of the three regions lacks the `hide` class. -/
def exactlyOneVisible (v : Visibility) : Bool :=
  (cond v.inputHidden 0 1) + (cond v.tableHidden 0 1) + (cond v.loadingHidden 0 1) = 1

/-- A regex stub that matches every string, used for concrete runs. -/
def alwaysMatch : String → Bool := fun _ => true

/-- Folding minute counts over entries is summing them. -/
theorem foldl_minutes_eq_sum (l : List TimesheetEntry) :
    ∀ a : ℤ, l.foldl (fun acc e => acc + e.minutes_spent) a
      = a + (l.map (fun e => e.minutes_spent)).sum := by
  induction l with
  | nil => intro a; simp
  | cons e t ih => intro a; simp [List.foldl, ih, add_assoc]

/-- Structural description of `prepareTableData`: a fixed header, one row
per entry with its rounded bill, and a total row over the sum of the
minute counts. -/
theorem prepareTableData_eq (response : TimesheetResponse) :
    prepareTableData response =
      ["Work Details", "Billable time", "Note", "Billing (/hr)", "Total Billing"] ::
      (response.entries.map (fun entry =>
        [entry.story_name, minutesToLabel (some entry.minutes_spent), entry.notes,
          "$" ++ numStr response.per_hour,
          "$" ++ numStr (round2 ((entry.minutes_spent : ℚ) * (response.per_hour / 60)))]) ++
      [["<b>Total</b>",
        "<b>" ++ minutesToLabel
          (some ((response.entries.map (fun e => e.minutes_spent)).sum)) ++ "</b>", "", "",
        "<b>$" ++ numStr (round2
          (((((response.entries.map (fun e => e.minutes_spent)).sum : ℤ)) : ℚ) *
            (response.per_hour / 60))) ++ "</b>"]]) := by
  simp only [prepareTableData, foldl_minutes_eq_sum, zero_add]

example : minutesToLabel (some 90) = "1h:30m" := by decide
example : minutesToLabel (some 45) = "45 minutes" := by decide
example : minutesToLabel (some 120) = "2 hours" := by decide

example : round2 (((60 : ℤ) : ℚ) * ((10 : ℚ) / 60)) = 10 := by
  norm_num [round2, jsMathRound]

example : numStr (10 : ℚ) = "10" := by decide

example : prepareTableData ⟨[⟨"A", 60, "x"⟩], 10⟩ =
    [["Work Details", "Billable time", "Note", "Billing (/hr)", "Total Billing"],
     ["A", "1 hours", "x", "$10", "$10"],
     ["<b>Total</b>", "<b>1 hours</b>", "", "", "<b>$10</b>"]] := by
  simp only [prepareTableData, List.map, List.foldl]
  norm_num [round2, jsMathRound]
  decide

/-- C1: for every remote response, the derived table has the total-row
minute count equal to the sum of `minutes_spent` over the entries, the
total-row billing equal to `round2(total minutes × per_hour/60)`, and each
entry row's billing equal to `round2(entry minutes × per_hour/60)`, where
`round2` rounds half up on the value scaled by 100. -/
theorem spec_C1_prepareTableData_invariant (response : TimesheetResponse) :
    prepareTableData response =
      ["Work Details", "Billable time", "Note", "Billing (/hr)", "Total Billing"] ::
      (response.entries.map (fun entry =>
        [entry.story_name, minutesToLabel (some entry.minutes_spent), entry.notes,
          "$" ++ numStr response.per_hour,
          "$" ++ numStr (round2 ((entry.minutes_spent : ℚ) * (response.per_hour / 60)))]) ++
      [["<b>Total</b>",
        "<b>" ++ minutesToLabel
          (some ((response.entries.map (fun e => e.minutes_spent)).sum)) ++ "</b>", "", "",
        "<b>$" ++ numStr (round2
          (((((response.entries.map (fun e => e.minutes_spent)).sum : ℤ)) : ℚ) *
            (response.per_hour / 60))) ++ "</b>"]]) ∧
    round2 = fun q => ((⌊q * 100 + 1/2⌋ : ℤ) : ℚ) / 100 :=
  ⟨prepareTableData_eq response, rfl⟩

/-- C2: on the response with a single entry (story "A", 60 minutes, note
"x") and rate 10 per hour, `prepareTableData` returns exactly the header
row, the data row `["A", "1 hours", "x", "$10", "$10"]`, and the bold
total row; in general the table has one row per entry plus header and
total, and every row has width 5. -/
theorem spec_C2_concrete_table :
    prepareTableData ⟨[⟨"A", 60, "x"⟩], 10⟩ =
      [["Work Details", "Billable time", "Note", "Billing (/hr)", "Total Billing"],
       ["A", "1 hours", "x", "$10", "$10"],
       ["<b>Total</b>", "<b>1 hours</b>", "", "", "<b>$10</b>"]] ∧
    (∀ response : TimesheetResponse,
      (prepareTableData response).length = response.entries.length + 2 ∧
      ∀ row ∈ prepareTableData response, row.length = 5) := by
  constructor
  · simp only [prepareTableData, List.map, List.foldl]
    norm_num [round2, jsMathRound]
    decide
  · intro response
    rw [prepareTableData_eq]
    constructor
    · simp
    · intro row hrow
      simp only [List.mem_cons, List.mem_append, List.mem_map, List.mem_singleton] at hrow
      rcases hrow with rfl | ⟨e, he, rfl⟩ | rfl | h
      · rfl
      · rfl
      · rfl
      · exact absurd h (List.not_mem_nil _)

/-- C2 witness: the header row of a concrete table has width 5. -/
theorem spec_C2_concrete_table_witness :
    (["Work Details", "Billable time", "Note", "Billing (/hr)", "Total Billing"] :
      List String).length = 5 :=
  (spec_C2_concrete_table.2 ⟨[], 5⟩).2 _ (by rw [prepareTableData_eq]; simp)

/-- C3: `minutesToLabel` returns the empty string on `null` or zero,
`"<m> minutes"` when the hours component is zero, `"<h> hours"` when the
minutes component is zero, and `"<h>h:<m>m"` otherwise; in particular the
values at 0, 45, 120 and 90. -/
theorem spec_C3_minutesToLabel_cases :
    minutesToLabel none = "" ∧ minutesToLabel (some 0) = "" ∧
    (∀ m : ℤ, m ≠ 0 → (minutesToHoursMinutes m).1 = 0 →
      minutesToLabel (some m) = toString (minutesToHoursMinutes m).2 ++ " minutes") ∧
    (∀ m : ℤ, m ≠ 0 → (minutesToHoursMinutes m).1 ≠ 0 → (minutesToHoursMinutes m).2 = 0 →
      minutesToLabel (some m) = toString (minutesToHoursMinutes m).1 ++ " hours") ∧
    (∀ m : ℤ, m ≠ 0 → (minutesToHoursMinutes m).1 ≠ 0 → (minutesToHoursMinutes m).2 ≠ 0 →
      minutesToLabel (some m) = toString (minutesToHoursMinutes m).1 ++ "h:" ++
        toString (minutesToHoursMinutes m).2 ++ "m") ∧
    minutesToLabel (some 45) = "45 minutes" ∧
    minutesToLabel (some 120) = "2 hours" ∧
    minutesToLabel (some 90) = "1h:30m" := by
  refine ⟨rfl, rfl, ?_, ?_, ?_, by decide, by decide, by decide⟩
  · intro m hm h1
    simp [minutesToLabel, hm, h1]
  · intro m hm h1 h2
    simp [minutesToLabel, hm, h1, h2]
  · intro m hm h1 h2
    simp [minutesToLabel, hm, h1, h2]

/-- C3 witness: the minutes-only branch applied at 45. -/
theorem spec_C3_minutesToLabel_cases_witness :
    minutesToLabel (some 45) = toString (minutesToHoursMinutes (45 : ℤ)).2 ++ " minutes" :=
  spec_C3_minutesToLabel_cases.2.2.1 45 (by decide) (by decide)

/-- C4: for every non-negative integer m, `minutesToHoursMinutes m` is the
pair (h, r) with h the floor of m/60 and r = m - h*60, and it satisfies
h*60 + r = m and 0 ≤ r < 60. -/
theorem spec_C4_minutesToHoursMinutes_division (m : ℤ) (hm : 0 ≤ m) :
    (minutesToHoursMinutes m).1 = ⌊(m : ℚ) / 60⌋ ∧
    (minutesToHoursMinutes m).2 = m - (minutesToHoursMinutes m).1 * 60 ∧
    (minutesToHoursMinutes m).1 * 60 + (minutesToHoursMinutes m).2 = m ∧
    0 ≤ (minutesToHoursMinutes m).2 ∧ (minutesToHoursMinutes m).2 < 60 := by
  have hfd : Int.fdiv m 60 = m / 60 := Int.fdiv_eq_ediv m (by norm_num)
  refine ⟨minutesToHoursMinutes_fst_floor m, rfl, ?_, ?_, ?_⟩ <;>
    simp only [minutesToHoursMinutes, hfd] <;> omega

/-- C4 witness: the decomposition at m = 125. -/
theorem spec_C4_minutesToHoursMinutes_division_witness :
    (0 : ℤ) ≤ 125 ∧
    ((minutesToHoursMinutes 125).1 = ⌊((125 : ℤ) : ℚ) / 60⌋ ∧
     (minutesToHoursMinutes 125).2 = 125 - (minutesToHoursMinutes 125).1 * 60 ∧
     (minutesToHoursMinutes 125).1 * 60 + (minutesToHoursMinutes 125).2 = 125 ∧
     0 ≤ (minutesToHoursMinutes 125).2 ∧ (minutesToHoursMinutes 125).2 < 60) :=
  ⟨by decide, spec_C4_minutesToHoursMinutes_division 125 (by decide)⟩

/-- Every branch of `changeState` leaves exactly one region visible. -/
theorem exactlyOneVisible_changeState (s : STATE) (v : Visibility) :
    exactlyOneVisible (changeState s v) = true := by
  cases s <;> rfl

/-- Render leaves exactly one region visible, whichever branch is taken. -/
theorem exactlyOneVisible_render (d : BlockData) :
    exactlyOneVisible (render d).vis = true := by
  by_cases h : jsTruthyStr d.snippet
  · simp only [render, h, if_true]
    exact exactlyOneVisible_changeState _ _
  · simp only [render, h]
    rfl

/-- Every controller step preserves the one-visible-region invariant. -/
theorem exactlyOneVisible_step (rt : String → Bool) (st : BlockState) (e : BlockEvent)
    (h : exactlyOneVisible st.vis = true) :
    exactlyOneVisible (step rt st e).vis = true := by
  cases e with
  | input text outcome =>
    by_cases hrt : rt text
    · cases outcome with
      | success r =>
        simp only [step, handleInput, hrt, if_true, loadData, embedTable]
        exact exactlyOneVisible_changeState _ _
      | failure =>
        simp only [step, handleInput, hrt, if_true, loadData]
        exact exactlyOneVisible_changeState _ _
    · simpa [step, handleInput, hrt] using h
  | paste ev outcome =>
    cases ev with
    | pattern s =>
      cases outcome with
      | success r =>
        simp only [step, onPaste, loadData, embedTable]
        exact exactlyOneVisible_changeState _ _
      | failure => simpa [step, onPaste, loadData] using h
    | other => simpa [step, onPaste] using h

/-- The invariant propagates along any event sequence. -/
theorem exactlyOneVisible_steps (rt : String → Bool) (es : List BlockEvent) :
    ∀ st : BlockState, exactlyOneVisible st.vis = true →
      exactlyOneVisible (steps rt st es).vis = true := by
  induction es with
  | nil => intro st h; simpa [steps] using h
  | cons e t ih =>
    intro st h
    have hstep : steps rt st (e :: t) = steps rt (step rt st e) t := rfl
    rw [hstep]
    exact ih _ (exactlyOneVisible_step rt st e h)

/-- C5 counterexample: the claim says any non-null persisted snippet makes
the initial visible region the table, but constructing with the non-null
snippet `""` (which the constructor normalizes to null) renders with the
input visible and the table hidden. -/
theorem spec_C5_counterexample :
    (constructData (some ⟨some false, some [], some ""⟩)).snippet = none ∧
    (render (constructData (some ⟨some false, some [], some ""⟩))).vis =
      ⟨false, true, true⟩ := by decide

/-- C5 amended: after construct and render, the visible region is the
table (VIEW) exactly when the persisted data carries a non-null, nonempty
snippet, and the input (EDIT) otherwise. -/
theorem spec_C5_amended_initial_state (d : Option InputData) :
    (render (constructData d)).vis =
      if jsTruthyStr (d.bind fun dd => dd.snippet) then ⟨true, false, true⟩
      else ⟨false, true, true⟩ := by
  cases d with
  | none => rfl
  | some dd =>
    cases hs : dd.snippet with
    | none => simp [render, constructData, jsTruthyStr, hs, changeState]
    | some s =>
      by_cases h : s = "" <;>
        simp [render, constructData, jsTruthyStr, hs, h, changeState]

/-- C6: on fetch failure the catch handler only logs, so the block state
is unchanged; when the fetch was started from a matching input, the end
state is exactly the pre-fetch state, whose visible region is the loading
indicator. -/
theorem spec_C6_fetch_failure_no_transition (rt : String → Bool) (st : BlockState)
    (url text : String) (hmatch : rt text = true) :
    loadData st url .failure = st ∧
    handleInput rt st text .failure =
      { st with data := { st.data with snippet := some text },
                vis := changeState .LOADING st.vis } := by
  refine ⟨rfl, ?_⟩
  simp [handleInput, hmatch, loadData]

/-- C6 witness: the failure behaviour at a concrete block and input. -/
theorem spec_C6_fetch_failure_no_transition_witness :
    alwaysMatch "http://x" = true ∧
    (loadData (render (constructData none)) "http://x" .failure =
        render (constructData none) ∧
      handleInput alwaysMatch (render (constructData none)) "http://x" .failure =
        { render (constructData none) with
            data := { (render (constructData none)).data with snippet := some "http://x" },
            vis := changeState .LOADING (render (constructData none)).vis }) :=
  ⟨by decide, spec_C6_fetch_failure_no_transition alwaysMatch (render (constructData none))
    "http://x" "http://x" (by decide)⟩

/-- C7 counterexample: the claim says a pattern paste behaves like a
matching manual input, including recording the snippet and entering
LOADING; but on the concrete block rendered from empty data, pasting
"http://x" (with the fetch failing) leaves the snippet null and the input
region visible, while the manual input match records the snippet and shows
the loading indicator. -/
theorem spec_C7_counterexample :
    (onPaste (render (constructData none)) (.pattern "http://x") .failure).data.snippet
      = none ∧
    (handleInput alwaysMatch (render (constructData none)) "http://x" .failure).data.snippet
      = some "http://x" ∧
    (onPaste (render (constructData none)) (.pattern "http://x") .failure).vis =
      ⟨false, true, true⟩ ∧
    (handleInput alwaysMatch (render (constructData none)) "http://x" .failure).vis =
      ⟨true, true, false⟩ := by decide

/-- C7 amended: a pattern paste runs exactly the fetch-and-render flow
(`loadData`) against the matched text, so on fetch success it yields the
same table content and the same visible region as a manual input match;
but unlike the input match it does not record the text as snippet and does
not transition to LOADING. -/
theorem spec_C7_amended_paste_flow (rt : String → Bool) (st : BlockState) (s : String)
    (response : TimesheetResponse) (hmatch : rt s = true) :
    (onPaste st (.pattern s) (.success response)).data.content =
      (handleInput rt st s (.success response)).data.content ∧
    (onPaste st (.pattern s) (.success response)).vis =
      (handleInput rt st s (.success response)).vis ∧
    (onPaste st (.pattern s) (.success response)).data.snippet = st.data.snippet ∧
    (handleInput rt st s (.success response)).data.snippet = some s ∧
    (∀ outcome : FetchOutcome, onPaste st (.pattern s) outcome = loadData st s outcome) := by
  refine ⟨?_, ?_, rfl, ?_, fun outcome => rfl⟩ <;>
    simp [onPaste, handleInput, hmatch, loadData, embedTable, changeState]

/-- C7 amended witness: the flow compared at a concrete block, text and
response. -/
theorem spec_C7_amended_paste_flow_witness :
    alwaysMatch "http://x" = true ∧
    (onPaste (render (constructData none)) (.pattern "http://x")
        (.success ⟨[], 1⟩)).data.content =
      (handleInput alwaysMatch (render (constructData none)) "http://x"
        (.success ⟨[], 1⟩)).data.content :=
  ⟨by decide, (spec_C7_amended_paste_flow alwaysMatch (render (constructData none))
    "http://x" ⟨[], 1⟩ (by decide)).1⟩

/-- C8 counterexample: for persisted data with the (non-null) empty-string
snippet, construct + render + save returns null for the snippet, so the
round trip is not the identity on that BlockData. -/
theorem spec_C8_counterexample :
    save (render (constructData (some (InputData.ofBlockData
      ⟨false, [["a"]], some ""⟩)))) = ⟨false, [["a"]], none⟩ ∧
    (⟨false, [["a"]], none⟩ : BlockData) ≠ ⟨false, [["a"]], some ""⟩ := by decide

/-- C8 amended: for every persisted BlockData whose snippet is not the
empty string, constructing, rendering and saving with no user edits
returns the same BlockData. -/
theorem spec_C8_amended_roundtrip (d : BlockData) (hs : d.snippet ≠ some "") :
    save (render (constructData (some (InputData.ofBlockData d)))) = d := by
  obtain ⟨w, c, s⟩ := d
  cases s with
  | none => cases w <;> rfl
  | some str =>
    have hstr : str ≠ "" := fun h => hs (by rw [h])
    cases w <;> simp [save, render, constructData, InputData.ofBlockData, TableView.ofData,
      TableView.getData, jsTruthyStr, hstr]

/-- C8 amended witness: the round trip at a concrete BlockData. -/
theorem spec_C8_amended_roundtrip_witness :
    (⟨true, [["a", "b"]], some "http://x"⟩ : BlockData).snippet ≠ some "" ∧
    save (render (constructData (some (InputData.ofBlockData
      ⟨true, [["a", "b"]], some "http://x"⟩)))) = ⟨true, [["a", "b"]], some "http://x"⟩ :=
  ⟨by decide, spec_C8_amended_roundtrip ⟨true, [["a", "b"]], some "http://x"⟩ (by decide)⟩

/-- C9: in every state reachable after render by input-match,
fetch-success, fetch-failure and paste events, exactly one of the three
regions is visible; and `changeState` shows only the input in EDIT, only
the table in VIEW, and only the loading indicator in LOADING. -/
theorem spec_C9_exactly_one_region_visible (rt : String → Bool) (d : BlockData)
    (es : List BlockEvent) :
    exactlyOneVisible (steps rt (render d) es).vis = true ∧
    (∀ v : Visibility,
      changeState .EDIT v = ⟨false, true, true⟩ ∧
      changeState .VIEW v = ⟨true, false, true⟩ ∧
      changeState .LOADING v = ⟨true, true, false⟩) :=
  ⟨exactlyOneVisible_steps rt es (render d) (exactlyOneVisible_render d),
   fun v => ⟨rfl, rfl, rfl⟩⟩

/-- C10: the constructor maps every falsy persisted field to its default:
absent data or falsy withHeadings gives false, falsy content gives the
empty grid, falsy snippet (null or the empty string) gives null; in
particular construct + render + save on data with snippet "" returns a
null snippet. -/
theorem spec_C10_constructor_normalization :
    constructData none = ⟨false, [], none⟩ ∧
    (∀ d : InputData, d.withHeadings ≠ some true →
      (constructData (some d)).withHeadings = false) ∧
    (∀ d : InputData, d.content = none → (constructData (some d)).content = []) ∧
    (∀ d : InputData, d.snippet = none ∨ d.snippet = some "" →
      (constructData (some d)).snippet = none) ∧
    (save (render (constructData (some ⟨none, none, some ""⟩)))).snippet = none := by
  refine ⟨rfl, ?_, ?_, ?_, rfl⟩
  · intro d hd
    simp [constructData, hd]
  · intro d hd
    simp [constructData, hd]
  · intro d hd
    rcases hd with hd | hd <;> simp [constructData, jsTruthyStr, hd]

/-- C10 witness: the falsy-withHeadings case at a concrete input. -/
theorem spec_C10_constructor_normalization_witness :
    ((⟨some false, none, none⟩ : InputData).withHeadings ≠ some true) ∧
    (constructData (some ⟨some false, none, none⟩)).withHeadings = false :=
  ⟨by decide, spec_C10_constructor_normalization.2.1 ⟨some false, none, none⟩ (by decide)⟩
